import Mathlib

/-!
Verification of the Web-Forum-Application backend (Go, `forum` module).

Each Go store operation from `backend/sqlite/queries.go` and the relevant
handler logic from `backend/handlers/auth.go` is shallowly embedded as a pure
Lean function over explicit table states (lists of rows).  SQL semantics are
modelled directly: a `WHERE col = ?` filter keeps the rows whose column equals
the argument (an SQL `NULL` column, modelled as `none`, never equals a value),
`ORDER BY` is a stable merge sort on the ordering column, `LIMIT`/`OFFSET`
follow SQLite's rules, and `IN (...)` is list membership.
-/

namespace Forum

/-- A row of the `likes` table: `user_id`, `post_id` (nullable), `comment_id`
(nullable), `type`, `created_at`.  Mirrors the columns used by `ToggleLike`,
`CountLikesAndDislikes` and `GetPostsLikedByUser` in `queries.go`. -/
structure ReactionRow where
  userID : String
  postID : Option Nat
  commentID : Option Nat
  type : String
  createdAt : Nat
deriving DecidableEq, Repr

/-- The `WHERE user_id = ? AND post_id = ?` (resp. `comment_id`) predicate used
by the SELECT/DELETE/UPDATE statements inside `ToggleLike`.  The Go code
branches on `postID != nil` first, exactly as here. -/
def matchesTarget (r : ReactionRow) (userID : String) (postID commentID : Option Nat) : Bool :=
  match postID with
  | some p => r.userID = userID && r.postID = some p
  | none =>
    match commentID with
    | some c => r.userID = userID && r.commentID = some c
    | none => false

/-- The `SELECT type FROM likes WHERE ...` single-row query inside
`ToggleLike`: the first stored row matching the (user, target) predicate. -/
def findReaction (likes : List ReactionRow) (userID : String)
    (postID commentID : Option Nat) : Option ReactionRow :=
  likes.find? (fun r => matchesTarget r userID postID commentID)

/-- Embedding of `ToggleLike(db, userID, postID, commentID, reactionType)`
(`queries.go:270`).  The table state is passed and returned explicitly; `now`
stands for the `created_at` default the database fills on INSERT.
The two leading validation checks are verbatim from the Go code; then the
SELECT either finds no row (INSERT), a row of the same type (DELETE), or a row
of a different type (UPDATE). -/
def ToggleLike (likes : List ReactionRow) (userID : String) (postID commentID : Option Nat)
    (reactionType : String) (now : Nat) : Except String (List ReactionRow) :=
  if reactionType ≠ "like" ∧ reactionType ≠ "dislike" then
    .error "invalid reaction type"
  else if (postID = none ∧ commentID = none) ∨ (postID ≠ none ∧ commentID ≠ none) then
    .error "must provide either postID or commentID, but not both"
  else
    match findReaction likes userID postID commentID with
    | none =>
      -- No existing reaction — insert
      .ok (likes ++ [⟨userID, postID, commentID, reactionType, now⟩])
    | some r =>
      if r.type = reactionType then
        -- Same reaction exists — toggle off (delete)
        .ok (likes.filter (fun s => ! matchesTarget s userID postID commentID))
      else
        -- Different reaction — update
        .ok (likes.map (fun s =>
          if matchesTarget s userID postID commentID then {s with type := reactionType} else s))

/-- Embedding of `CountLikesAndDislikes(db, postID, commentID)`
(`queries.go:321`): the grouped count over `likes` filtered by the target
column alone. -/
def CountLikesAndDislikes (likes : List ReactionRow) (postID commentID : Option Nat) :
    Except String (Nat × Nat) :=
  if (postID = none ∧ commentID = none) ∨ (postID ≠ none ∧ commentID ≠ none) then
    .error "must provide either postID or commentID, but not both"
  else
    let rows : List ReactionRow := match postID with
      | some p => likes.filter (fun r => r.postID = some p)
      | none => likes.filter (fun r => r.commentID = commentID)
    .ok ((rows.filter (fun r => r.type = "like")).length,
         (rows.filter (fun r => r.type = "dislike")).length)

/-- The spec's reaction states per (user, target) pair. -/
inductive ReactionState where
  | NoReaction
  | Liked
  | Disliked
deriving DecidableEq, Repr

/-- The state the stored rows encode for a (user, target) pair: the row found
by `ToggleLike`'s SELECT, read as Liked/Disliked, or NoReaction if absent. -/
def stateOf (likes : List ReactionRow) (userID : String) (postID commentID : Option Nat) :
    ReactionState :=
  match findReaction likes userID postID commentID with
  | none => .NoReaction
  | some r => if r.type = "like" then .Liked else .Disliked

/-- The transition function of the spec's state machine (§4.5), written from
the spec's words: insert on NoReaction, toggle-off on same type, switch on
opposite type. -/
def specToggleNext : ReactionState → String → ReactionState
  | .NoReaction, t => if t = "like" then .Liked else .Disliked
  | .Liked, t => if t = "like" then .NoReaction else .Disliked
  | .Disliked, t => if t = "dislike" then .NoReaction else .Liked

/-- A reaction target is well-formed when exactly one of post/comment is set. -/
def oneTarget (postID commentID : Option Nat) : Prop :=
  (postID.isSome ∧ commentID = none) ∨ (postID = none ∧ commentID.isSome)

instance (postID commentID : Option Nat) : Decidable (oneTarget postID commentID) := by
  unfold oneTarget; infer_instance

/-- The `likes`-table invariant from the spec's data model (§3): every row
targets exactly one of a post or a comment, carries a valid type, and each
(user, target) pair has at most one row. -/
structure ReactionWF (likes : List ReactionRow) : Prop where
  oneTargetRows : ∀ r ∈ likes, oneTarget r.postID r.commentID
  typeRows : ∀ r ∈ likes, r.type = "like" ∨ r.type = "dislike"
  atMostOne : likes.Pairwise
    (fun r s => ¬ (r.userID = s.userID ∧ r.postID = s.postID ∧ r.commentID = s.commentID))

lemma oneTarget_of_not_bad (p c : Option Nat)
    (h : ¬ ((p = none ∧ c = none) ∨ (p ≠ none ∧ c ≠ none))) : oneTarget p c := by
  push_neg at h
  obtain ⟨h1, h2⟩ := h
  cases p with
  | none =>
    cases c with
    | none => exact (h1 rfl rfl).elim
    | some y => exact Or.inr ⟨rfl, rfl⟩
  | some x =>
    cases c with
    | none => exact Or.inl ⟨rfl, rfl⟩
    | some y => exact absurd (h2 (by simp)) (by simp)

lemma not_bad_of_oneTarget (p c : Option Nat) (hv : oneTarget p c) :
    ¬ ((p = none ∧ c = none) ∨ (p ≠ none ∧ c ≠ none)) := by
  rcases hv with ⟨hp, hc⟩ | ⟨hp, hc⟩
  · obtain ⟨x, hx⟩ := Option.isSome_iff_exists.mp hp
    subst hx hc
    simp
  · obtain ⟨y, hy⟩ := Option.isSome_iff_exists.mp hc
    subst hy hp
    simp

lemma matchesTarget_of_fields (s : ReactionRow) (u : String) (p c : Option Nat)
    (hv : oneTarget p c) (hu : s.userID = u) (hp : s.postID = p) (hc : s.commentID = c) :
    matchesTarget s u p c = true := by
  rcases hv with ⟨hps, _⟩ | ⟨hpn, hcs⟩
  · obtain ⟨x, hx⟩ := Option.isSome_iff_exists.mp hps
    subst hx
    simp [matchesTarget, hu, hp]
  · obtain ⟨y, hy⟩ := Option.isSome_iff_exists.mp hcs
    subst hy hpn
    simp [matchesTarget, hu, hc]

lemma fields_of_matchesTarget (s : ReactionRow) (u : String) (p c : Option Nat)
    (hs : oneTarget s.postID s.commentID) (hv : oneTarget p c)
    (h : matchesTarget s u p c = true) :
    s.userID = u ∧ s.postID = p ∧ s.commentID = c := by
  rcases hv with ⟨hps, hcn⟩ | ⟨hpn, hcs⟩
  · obtain ⟨x, hx⟩ := Option.isSome_iff_exists.mp hps
    subst hx
    simp only [matchesTarget, Bool.and_eq_true, decide_eq_true_eq] at h
    refine ⟨h.1, h.2, ?_⟩
    rcases hs with ⟨_, hc⟩ | ⟨hp', _⟩
    · rw [hc, hcn]
    · rw [hp'] at h; exact absurd h.2 (by simp)
  · obtain ⟨y, hy⟩ := Option.isSome_iff_exists.mp hcs
    subst hy hpn
    simp only [matchesTarget, Bool.and_eq_true, decide_eq_true_eq] at h
    refine ⟨h.1, ?_, h.2⟩
    rcases hs with ⟨hp', hc'⟩ | ⟨hp', _⟩
    · rw [hc'] at h; exact absurd h.2 (by simp)
    · rw [hp']

lemma matchesTarget_congr (s s' : ReactionRow) (u : String) (p c : Option Nat)
    (hu : s'.userID = s.userID) (hp : s'.postID = s.postID) (hc : s'.commentID = s.commentID) :
    matchesTarget s' u p c = matchesTarget s u p c := by
  unfold matchesTarget
  cases p with
  | some x => simp [hu, hp]
  | none =>
    cases c with
    | some y => simp [hu, hc]
    | none => rfl

/-- C2: any reaction type other than exactly "like" or "dislike", or a target
that is not exactly one of post/comment, makes `ToggleLike` return the
corresponding validation error — for every store state, so the result is
independent of (and leaves unchanged) the store; the state-passing embedding
returns an error before any row is read or written. -/
theorem toggleLike_validation_rejects (likes : List ReactionRow) (u : String)
    (p c : Option Nat) (t : String) (now : Nat) :
    ((t ≠ "like" ∧ t ≠ "dislike") →
      ToggleLike likes u p c t now = .error "invalid reaction type") ∧
    (((p = none ∧ c = none) ∨ (p ≠ none ∧ c ≠ none)) → (t = "like" ∨ t = "dislike") →
      ToggleLike likes u p c t now =
        .error "must provide either postID or commentID, but not both") := by
  constructor
  · intro h
    rw [ToggleLike, if_pos h]
  · intro hbad ht
    have hne : ¬ (t ≠ "like" ∧ t ≠ "dislike") := by
      rcases ht with h | h <;> simp [h]
    rw [ToggleLike, if_neg hne, if_pos hbad]

/-- Witness for `toggleLike_validation_rejects` at concrete inputs. -/
theorem toggleLike_validation_rejects_witness :
    ToggleLike [] "u" (some 1) none "upvote" 0 = .error "invalid reaction type" ∧
    ToggleLike [] "u" (some 1) (some 2) "like" 0 =
      .error "must provide either postID or commentID, but not both" :=
  ⟨(toggleLike_validation_rejects [] "u" (some 1) none "upvote" 0).1 (by decide),
   (toggleLike_validation_rejects [] "u" (some 1) (some 2) "like" 0).2
     (by simp) (Or.inl rfl)⟩

/-- C3: every successful `ToggleLike` preserves the `likes`-table invariant:
at most one reaction row per (user, target) pair, every row targeting exactly
one of a post or a comment, and every row's type in {"like", "dislike"}. -/
theorem toggleLike_preserves_invariant (likes likes2 : List ReactionRow) (u : String)
    (p c : Option Nat) (t : String) (now : Nat)
    (hWF : ReactionWF likes) (hok : ToggleLike likes u p c t now = .ok likes2) :
    ReactionWF likes2 := by
  rw [ToggleLike] at hok
  by_cases ht0 : t ≠ "like" ∧ t ≠ "dislike"
  · rw [if_pos ht0] at hok; exact absurd hok (by simp)
  · rw [if_neg ht0] at hok
    have ht : t = "like" ∨ t = "dislike" := by
      rcases not_and_or.mp ht0 with h | h
      · exact Or.inl (not_not.mp h)
      · exact Or.inr (not_not.mp h)
    by_cases hbad : (p = none ∧ c = none) ∨ (p ≠ none ∧ c ≠ none)
    · rw [if_pos hbad] at hok; exact absurd hok (by simp)
    · rw [if_neg hbad] at hok
      have hv : oneTarget p c := oneTarget_of_not_bad p c hbad
      cases hfind : findReaction likes u p c with
      | none =>
        rw [hfind] at hok
        simp only [Except.ok.injEq] at hok
        subst hok
        refine ⟨?_, ?_, ?_⟩
        · intro r hr
          rcases List.mem_append.mp hr with h | h
          · exact hWF.oneTargetRows r h
          · rw [List.mem_singleton.mp h]; exact hv
        · intro r hr
          rcases List.mem_append.mp hr with h | h
          · exact hWF.typeRows r h
          · rw [List.mem_singleton.mp h]; exact ht
        · refine List.pairwise_append.mpr ⟨hWF.atMostOne, List.pairwise_singleton _ _, ?_⟩
          intro a ha b hb heq
          rw [List.mem_singleton.mp hb] at heq
          have hm : matchesTarget a u p c = true :=
            matchesTarget_of_fields a u p c hv heq.1 heq.2.1 heq.2.2
          have : ∀ x ∈ likes, ¬ matchesTarget x u p c = true :=
            List.find?_eq_none.mp hfind
          exact this a ha hm
      | some r =>
        simp only [hfind] at hok
        by_cases hty : r.type = t
        · rw [if_pos hty] at hok
          simp only [Except.ok.injEq] at hok
          subst hok
          refine ⟨?_, ?_, ?_⟩
          · intro s hs; exact hWF.oneTargetRows s (List.mem_of_mem_filter hs)
          · intro s hs; exact hWF.typeRows s (List.mem_of_mem_filter hs)
          · exact List.Pairwise.sublist (List.filter_sublist likes) hWF.atMostOne
        · rw [if_neg hty] at hok
          simp only [Except.ok.injEq] at hok
          subst hok
          refine ⟨?_, ?_, ?_⟩
          · intro s hs
            obtain ⟨a, ha, rfl⟩ := List.mem_map.mp hs
            have := hWF.oneTargetRows a ha
            split <;> exact this
          · intro s hs
            obtain ⟨a, ha, rfl⟩ := List.mem_map.mp hs
            split
            · exact ht
            · exact hWF.typeRows a ha
          · refine List.pairwise_map.mpr (hWF.atMostOne.imp ?_)
            intro a b hab heq
            apply hab
            revert heq
            split <;> split <;> exact fun h => h

/-- Witness for `toggleLike_preserves_invariant`: the invariant holds of the
store produced by a concrete successful toggle on the empty store. -/
theorem toggleLike_preserves_invariant_witness :
    ReactionWF [⟨"u", some 1, none, "like", 0⟩] :=
  toggleLike_preserves_invariant [] [⟨"u", some 1, none, "like", 0⟩]
    "u" (some 1) none "like" 0
    ⟨by simp, by simp, List.Pairwise.nil⟩ rfl

/-- C1: `ToggleLike` implements the spec's per-(user, target) state machine.
For every well-formed store, user and valid target: the toggle succeeds and
moves the stored state by `specToggleNext`; from `NoReaction` it inserts a row
of the requested type, and repeating the same toggle deletes it again,
restoring the store and hence `CountLikesAndDislikes`; on an existing row of
the same type it deletes (back to `NoReaction`); on an existing row of the
opposite type it updates the row in place (same row count). -/
theorem toggleLike_implements_state_machine (likes : List ReactionRow) (u : String)
    (p c : Option Nat) (t : String) (now : Nat)
    (hWF : ReactionWF likes) (hv : oneTarget p c) (ht : t = "like" ∨ t = "dislike") :
    ∃ likes2,
      ToggleLike likes u p c t now = .ok likes2 ∧
      stateOf likes2 u p c = specToggleNext (stateOf likes u p c) t ∧
      (stateOf likes u p c = .NoReaction →
        likes2 = likes ++ [⟨u, p, c, t, now⟩] ∧
        (∀ now2, ToggleLike likes2 u p c t now2 = .ok likes) ∧
        (∀ now2 likes3, ToggleLike likes2 u p c t now2 = .ok likes3 →
          stateOf likes3 u p c = .NoReaction ∧
          CountLikesAndDislikes likes3 p c = CountLikesAndDislikes likes p c)) ∧
      (∀ r, findReaction likes u p c = some r → r.type = t →
        likes2 = likes.filter (fun s => ! matchesTarget s u p c) ∧
        stateOf likes2 u p c = .NoReaction) ∧
      (∀ r, findReaction likes u p c = some r → r.type ≠ t →
        likes2 = likes.map (fun s =>
          if matchesTarget s u p c then {s with type := t} else s) ∧
        likes2.length = likes.length ∧
        stateOf likes2 u p c = (if t = "like" then .Liked else .Disliked)) := by
  have hne : ¬ (t ≠ "like" ∧ t ≠ "dislike") := by
    rcases ht with h | h <;> simp [h]
  have hbad := not_bad_of_oneTarget p c hv
  cases hfind : findReaction likes u p c with
  | none =>
    have hfind' : likes.find? (fun s => matchesTarget s u p c) = none := hfind
    have hstate0 : stateOf likes u p c = .NoReaction := by rw [stateOf, hfind]
    have hmself : matchesTarget ⟨u, p, c, t, now⟩ u p c = true :=
      matchesTarget_of_fields _ u p c hv rfl rfl rfl
    have hfind2 : findReaction (likes ++ [⟨u, p, c, t, now⟩]) u p c =
        some ⟨u, p, c, t, now⟩ := by
      rw [findReaction, List.find?_append, hfind']
      simp [hmself]
    have hsecond : ∀ now2,
        ToggleLike (likes ++ [⟨u, p, c, t, now⟩]) u p c t now2 = .ok likes := by
      intro now2
      rw [ToggleLike, if_neg hne, if_neg hbad, hfind2]
      simp only [if_pos rfl]
      have h1 : likes.filter (fun s => ! matchesTarget s u p c) = likes :=
        List.filter_eq_self.mpr (fun a ha => by
          have := List.find?_eq_none.mp hfind' a ha
          simp only [Bool.not_eq_true'] at this ⊢
          simp [this])
      rw [List.filter_append, h1]
      simp [hmself]
    refine ⟨likes ++ [⟨u, p, c, t, now⟩], ?_, ?_, ?_, ?_, ?_⟩
    · rw [ToggleLike, if_neg hne, if_neg hbad, hfind]
    · rw [stateOf, hfind2, hstate0]
      rcases ht with rfl | rfl <;> simp [specToggleNext]
    · intro _
      refine ⟨rfl, hsecond, ?_⟩
      intro now2 likes3 h3
      rw [hsecond now2] at h3
      injection h3 with h3
      subst h3
      exact ⟨hstate0, rfl⟩
    · intro r hr
      exact absurd hr (by simp)
    · intro r hr
      exact absurd hr (by simp)
  | some r =>
    have hfind' : likes.find? (fun s => matchesTarget s u p c) = some r := hfind
    have hrmem : r ∈ likes := List.mem_of_find?_eq_some hfind'
    have hrmatch : matchesTarget r u p c = true := by
      simpa using List.find?_some hfind'
    have hrtype := hWF.typeRows r hrmem
    have hstate0 : stateOf likes u p c = (if r.type = "like" then .Liked else .Disliked) := by
      rw [stateOf, hfind]
    by_cases hty : r.type = t
    · -- same type: toggle off
      have hres : ToggleLike likes u p c t now =
          .ok (likes.filter (fun s => ! matchesTarget s u p c)) := by
        rw [ToggleLike, if_neg hne, if_neg hbad, hfind]
        simp [hty]
      have hfindDel :
          findReaction (likes.filter (fun s => ! matchesTarget s u p c)) u p c = none := by
        rw [findReaction]
        apply List.find?_eq_none.mpr
        intro x hx
        have hx2 := (List.mem_filter.mp hx).2
        simp only [Bool.not_eq_true'] at hx2
        simp [hx2]
      refine ⟨_, hres, ?_, ?_, ?_, ?_⟩
      · rw [stateOf, hfindDel, hstate0]
        rcases ht with rfl | rfl <;> rw [hty] <;> simp [specToggleNext]
      · intro hNo
        rw [hstate0] at hNo
        split at hNo <;> exact absurd hNo (by simp)
      · intro r' hr' _
        injection hr' with h
        subst h
        exact ⟨rfl, by rw [stateOf, hfindDel]⟩
      · intro r' hr' hty'
        injection hr' with h
        subst h
        exact absurd hty hty'
    · -- different type: update in place
      have hres : ToggleLike likes u p c t now =
          .ok (likes.map (fun s =>
            if matchesTarget s u p c then {s with type := t} else s)) := by
        rw [ToggleLike, if_neg hne, if_neg hbad, hfind]
        simp [hty]
      have hcomp : ((fun s => matchesTarget s u p c) ∘
          (fun s : ReactionRow =>
            if matchesTarget s u p c then {s with type := t} else s)) =
          (fun s => matchesTarget s u p c) := by
        funext s
        simp only [Function.comp_apply]
        apply matchesTarget_congr <;> split <;> rfl
      have hfindMap : findReaction (likes.map (fun s =>
          if matchesTarget s u p c then {s with type := t} else s)) u p c =
          some {r with type := t} := by
        rw [findReaction, List.find?_map, hcomp, hfind']
        simp [hrmatch]
      refine ⟨_, hres, ?_, ?_, ?_, ?_⟩
      · rw [stateOf, hfindMap, hstate0]
        rcases ht with rfl | rfl
        · have hr2 : r.type = "dislike" := hrtype.resolve_left hty
          rw [hr2]
          simp [specToggleNext]
        · have hr2 : r.type = "like" := hrtype.resolve_right hty
          rw [hr2]
          simp [specToggleNext]
      · intro hNo
        rw [hstate0] at hNo
        split at hNo <;> exact absurd hNo (by simp)
      · intro r' hr' hty'
        injection hr' with h
        subst h
        exact absurd hty' hty
      · intro r' hr' _
        injection hr' with h
        subst h
        refine ⟨rfl, List.length_map _ _, ?_⟩
        rw [stateOf, hfindMap]

/-- Witness for `toggleLike_implements_state_machine`: concrete run on the
empty store, target post 1, type "like". -/
theorem toggleLike_implements_state_machine_witness :
    ToggleLike [] "u" (some 1) none "like" 0 =
      .ok [⟨"u", some 1, none, "like", 0⟩] ∧
    stateOf [⟨"u", some 1, none, "like", 0⟩] "u" (some 1) none = .Liked ∧
    ToggleLike [⟨"u", some 1, none, "like", 0⟩] "u" (some 1) none "like" 7 = .ok [] := by
  obtain ⟨likes2, hok, hstate, hins, -, -⟩ :=
    toggleLike_implements_state_machine [] "u" (some 1) none "like" 0
      ⟨by simp, by simp, List.Pairwise.nil⟩ (Or.inl ⟨rfl, rfl⟩) (Or.inl rfl)
  obtain ⟨heq, hsecond, -⟩ := hins rfl
  simp only [List.nil_append] at heq
  subst heq
  exact ⟨hok, by rw [hstate]; rfl, hsecond 7⟩

/-! ## Sessions (`sessions` table) -/

/-- A row of the `sessions` table: `id`, `user_id`, `created_at`. -/
structure SessionRow where
  id : String
  userID : String
  createdAt : Nat
deriving DecidableEq, Repr

/-- Embedding of `DeleteAllUserSessions(db, userID)` (`queries.go:740`):
`DELETE FROM sessions WHERE user_id = ?`. -/
def DeleteAllUserSessions (sessions : List SessionRow) (userID : String) : List SessionRow :=
  sessions.filter (fun s => s.userID ≠ userID)

/-- Embedding of `CreateSession(db, userID)` (`queries.go:719`): insert a row
with a fresh token (`sessionID`, generated as a UUID in Go) and the current
time. -/
def CreateSession (sessions : List SessionRow) (userID sessionID : String) (now : Nat) :
    List SessionRow :=
  sessions ++ [⟨sessionID, userID, now⟩]

/-- Embedding of `GetUserIDFromSession(db, sessionID)` (`queries.go:469`):
resolve a session token to its user, returning `""` when no row matches
(Go returns `("", nil)` on `sql.ErrNoRows`). -/
def GetUserIDFromSession (sessions : List SessionRow) (sessionID : String) : String :=
  match sessions.find? (fun s => s.id = sessionID) with
  | none => ""
  | some s => s.userID

/-- The session steps of `LoginUser` (`auth.go:242`–`255`): delete all of the
user's existing sessions — a failure of this DELETE is only logged
(`deleteOk = false` models that case) — then create the new session. -/
def loginSessionFlow (sessions : List SessionRow) (userID sessionID : String) (now : Nat)
    (deleteOk : Bool) : List SessionRow :=
  let cleaned := if deleteOk then DeleteAllUserSessions sessions userID else sessions
  CreateSession cleaned userID sessionID now

/-- C4: after a successful login whose cleanup DELETE succeeded, the user's
session rows are exactly the single newly created one, the new token resolves
to the user, and no pre-existing session of that user resolves any more; and
even when the cleanup DELETE fails the login still goes through and creates
the new session. -/
theorem login_single_session (sessions : List SessionRow) (u sid : String) (now : Nat)
    (hfresh : ∀ s ∈ sessions, s.id ≠ sid)
    (hids : (sessions.map (·.id)).Nodup) :
    ((loginSessionFlow sessions u sid now true).filter (fun s => s.userID = u) =
      [⟨sid, u, now⟩]) ∧
    GetUserIDFromSession (loginSessionFlow sessions u sid now true) sid = u ∧
    (∀ o ∈ sessions, o.userID = u →
      GetUserIDFromSession (loginSessionFlow sessions u sid now true) o.id = "") ∧
    (∀ deleteOk, ⟨sid, u, now⟩ ∈ loginSessionFlow sessions u sid now deleteOk) := by
  have hflow : loginSessionFlow sessions u sid now true =
      sessions.filter (fun s => s.userID ≠ u) ++ [⟨sid, u, now⟩] := rfl
  refine ⟨?_, ?_, ?_, ?_⟩
  · rw [hflow, List.filter_append, List.filter_filter]
    have h1 : (sessions.filter fun s => decide (s.userID = u) && decide ¬s.userID = u) = [] := by
      apply List.filter_eq_nil_iff.mpr
      intro s _
      by_cases h : s.userID = u <;> simp [h]
    rw [h1]
    simp
  · rw [GetUserIDFromSession, hflow, List.find?_append]
    have h1 : (sessions.filter fun s => s.userID ≠ u).find? (fun s => s.id = sid) = none := by
      apply List.find?_eq_none.mpr
      intro s hs
      simp [hfresh s (List.mem_of_mem_filter hs)]
    rw [h1]
    simp
  · intro o ho hou
    rw [GetUserIDFromSession, hflow, List.find?_append]
    have h1 : (sessions.filter fun s => s.userID ≠ u).find? (fun s => s.id = o.id) = none := by
      apply List.find?_eq_none.mpr
      intro s hs
      obtain ⟨hsmem, hsu⟩ := List.mem_filter.mp hs
      simp only [decide_not, Bool.not_eq_eq_eq_not, Bool.not_true, decide_eq_false_iff_not] at hsu
      intro hid
      simp only [decide_eq_true_eq] at hid
      have hne : s ≠ o := fun h => hsu (h ▸ hou)
      have := List.inj_on_of_nodup_map hids hsmem ho hid
      exact hne this
    rw [h1]
    have h2 : sid ≠ o.id := fun h => hfresh o ho h.symm
    simp [h2]
  · intro deleteOk
    cases deleteOk <;> exact List.mem_append_right _ (List.mem_singleton_self _)

/-- Witness for `login_single_session`: one stale session for the same user
and one for another user. -/
theorem login_single_session_witness :
    (loginSessionFlow [⟨"s0", "alice", 1⟩, ⟨"s1", "bob", 2⟩] "alice" "s2" 3 true).filter
        (fun s => s.userID = "alice") = [⟨"s2", "alice", 3⟩] ∧
    GetUserIDFromSession
      (loginSessionFlow [⟨"s0", "alice", 1⟩, ⟨"s1", "bob", 2⟩] "alice" "s2" 3 true) "s0" = "" := by
  obtain ⟨h1, -, h3, -⟩ :=
    login_single_session [⟨"s0", "alice", 1⟩, ⟨"s1", "bob", 2⟩] "alice" "s2" 3
      (by decide) (by decide)
  exact ⟨h1, h3 ⟨"s0", "alice", 1⟩ (by decide) rfl⟩

/-! ## Users and the login handler -/

/-- A row of the `users` table (the columns selected by
`GetUserByEmail`/`GetUserByUsername`, minus the timestamps, which the login
flow never reads). -/
structure UserRow where
  id : String
  username : String
  email : String
  passwordHash : String
  avatarURL : String
deriving DecidableEq, Repr

/-- Embedding of `GetUserByEmail(db, email)` (`queries.go:697`); `none` is
Go's `sql.ErrNoRows`. -/
def GetUserByEmail (users : List UserRow) (email : String) : Option UserRow :=
  users.find? (fun u => u.email = email)

/-- Embedding of `GetUserByUsername(db, username)` (`queries.go:24`). -/
def GetUserByUsername (users : List UserRow) (username : String) : Option UserRow :=
  users.find? (fun u => u.username = username)

/-- The JSON body decoded by `LoginUser`. -/
structure Credentials where
  email : String
  username : String
  password : String
deriving DecidableEq, Repr

/-- The externally visible outcome of the login handler: an error response
(status code and generic message) or success for a user id (which then sets
the session cookie). -/
inductive LoginOutcome where
  | err (status : Nat) (msg : String)
  | ok (userID : String)
deriving DecidableEq, Repr

/-- Embedding of the decision logic of `LoginUser` (`auth.go:155`–`255`) from
the decoded body to the outcome.  The sanitizers and validators live in the
excluded `utils` package and are passed in as parameters
(`sanitizeEmail`/`sanitizeUsername` return `none` on rejection, mirroring
`ValidateAndSanitizeString`; `checkPasswordHash` is `utils.CheckPasswordHash`).
Branch structure and response texts follow the Go code line by line. -/
def LoginUser (users : List UserRow)
    (sanitizeEmail : String → Option String) (validateEmail : String → Bool)
    (sanitizeUsername : String → Option String) (validateUsername : String → Bool)
    (checkPasswordHash : String → String → Bool)
    (cred : Credentials) : LoginOutcome :=
  if cred.password = "" then .err 400 "Password cannot be empty"
  else if cred.email = "" ∧ cred.username = "" then .err 400 "Email or username is required"
  else if cred.email ≠ "" then
    match sanitizeEmail cred.email with
    | none => .err 400 "Invalid email format"
    | some sanitized =>
      if ¬ validateEmail sanitized then .err 400 "Invalid email format"
      else
        match GetUserByEmail users sanitized with
        | none => .err 401 "Invalid credentials"
        | some user =>
          if ¬ checkPasswordHash cred.password user.passwordHash then
            .err 401 "Invalid credentials"
          else .ok user.id
  else
    match sanitizeUsername cred.username with
    | none => .err 400 "Invalid username format"
    | some sanitized =>
      if ¬ validateUsername sanitized then .err 400 "Invalid username format"
      else
        match GetUserByUsername users sanitized with
        | none => .err 401 "Invalid credentials"
        | some user =>
          if ¬ checkPasswordHash cred.password user.passwordHash then
            .err 401 "Invalid credentials"
          else .ok user.id

/-- C5: for a login request with a non-empty password and a well-formed
identifier (one that passes sanitization and validation), the unknown-identity
failure and the wrong-password failure produce the identical external outcome
`err 401 "Invalid credentials"` — on both the email path and the username
path, for every user table, validator and hash checker. -/
theorem login_failure_indistinguishable (users : List UserRow)
    (sanE : String → Option String) (valE : String → Bool)
    (sanU : String → Option String) (valU : String → Bool)
    (chk : String → String → Bool) (cred : Credentials)
    (hpw : cred.password ≠ "") :
    (∀ sanitized, cred.email ≠ "" → sanE cred.email = some sanitized →
      valE sanitized = true →
      (GetUserByEmail users sanitized = none →
        LoginUser users sanE valE sanU valU chk cred = .err 401 "Invalid credentials") ∧
      (∀ u, GetUserByEmail users sanitized = some u →
        chk cred.password u.passwordHash = false →
        LoginUser users sanE valE sanU valU chk cred = .err 401 "Invalid credentials")) ∧
    (∀ sanitized, cred.email = "" → cred.username ≠ "" →
      sanU cred.username = some sanitized → valU sanitized = true →
      (GetUserByUsername users sanitized = none →
        LoginUser users sanE valE sanU valU chk cred = .err 401 "Invalid credentials") ∧
      (∀ u, GetUserByUsername users sanitized = some u →
        chk cred.password u.passwordHash = false →
        LoginUser users sanE valE sanU valU chk cred = .err 401 "Invalid credentials")) := by
  constructor
  · intro sanitized hemail hsan hval
    have hboth : ¬ (cred.email = "" ∧ cred.username = "") := fun h => hemail h.1
    constructor
    · intro hnone
      rw [LoginUser, if_neg hpw, if_neg hboth, if_pos hemail, hsan]
      simp only [hval, Bool.not_true, if_neg, hnone]
      simp
    · intro u hsome hchk
      rw [LoginUser, if_neg hpw, if_neg hboth, if_pos hemail, hsan]
      simp only [hval, Bool.not_true, hsome, hchk]
      simp
  · intro sanitized hemail husername hsan hval
    have hboth : ¬ (cred.email = "" ∧ cred.username = "") := fun h => husername h.2
    have hne : ¬ cred.email ≠ "" := fun h => h hemail
    constructor
    · intro hnone
      rw [LoginUser, if_neg hpw, if_neg hboth, if_neg hne, hsan]
      simp only [hval, Bool.not_true, hnone]
      simp
    · intro u hsome hchk
      rw [LoginUser, if_neg hpw, if_neg hboth, if_neg hne, hsan]
      simp only [hval, Bool.not_true, hsome, hchk]
      simp

/-- Witness for `login_failure_indistinguishable`: with a one-user table,
identity-sanitizers, an unknown email and a known email with a failing
password check both yield the same 401 outcome. -/
theorem login_failure_indistinguishable_witness :
    LoginUser [⟨"id1", "alice", "alice@x.io", "h1", "a.png"⟩]
      some (fun _ => true) some (fun _ => true) (fun _ _ => false)
      ⟨"bob@x.io", "", "pw"⟩ = .err 401 "Invalid credentials" ∧
    LoginUser [⟨"id1", "alice", "alice@x.io", "h1", "a.png"⟩]
      some (fun _ => true) some (fun _ => true) (fun _ _ => false)
      ⟨"alice@x.io", "", "pw"⟩ = .err 401 "Invalid credentials" := by
  constructor
  · exact ((login_failure_indistinguishable [⟨"id1", "alice", "alice@x.io", "h1", "a.png"⟩]
      some (fun _ => true) some (fun _ => true) (fun _ _ => false)
      ⟨"bob@x.io", "", "pw"⟩ (by decide)).1 "bob@x.io" (by decide) rfl rfl).1 (by decide)
  · exact ((login_failure_indistinguishable [⟨"id1", "alice", "alice@x.io", "h1", "a.png"⟩]
      some (fun _ => true) some (fun _ => true) (fun _ _ => false)
      ⟨"alice@x.io", "", "pw"⟩ (by decide)).1 "alice@x.io" (by decide) rfl rfl).2
      ⟨"id1", "alice", "alice@x.io", "h1", "a.png"⟩ (by decide) rfl

/-! ## Categories (`categories` table) -/

/-- A row of the `categories` table. -/
structure CategoryRow where
  id : Nat
  name : String
deriving DecidableEq, Repr

/-- Embedding of `GetCategoryNamesByIDs(db, categoryIDs)` (`queries.go:646`):
early return on an empty id list, otherwise
`SELECT name FROM categories WHERE id IN (...) ORDER BY name` — the rows whose
id is a member of the list (SQL `IN` semantics), their names sorted
lexicographically. -/
def GetCategoryNamesByIDs (cats : List CategoryRow) (categoryIDs : List Nat) : List String :=
  if categoryIDs.length = 0 then []
  else
    List.insertionSort (· ≤ ·)
      ((cats.filter (fun cat => categoryIDs.contains cat.id)).map (fun cat => cat.name))

/-- The categories store: the table rows plus the next AUTOINCREMENT id that
`INSERT ... RETURNING id` would mint. -/
structure CatStore where
  cats : List CategoryRow
  nextID : Nat
deriving DecidableEq, Repr

/-- Embedding of `GetOrCreateCategoryIDs(db, names)` (`queries.go:247`): for
each name in order, `SELECT id FROM categories WHERE name = ?`; on
`sql.ErrNoRows`, `INSERT INTO categories (name) VALUES (?) RETURNING id` mints
the next id. -/
def GetOrCreateCategoryIDs (s : CatStore) : List String → List Nat × CatStore
  | [] => ([], s)
  | name :: rest =>
    match s.cats.find? (fun cat => cat.name = name) with
    | some cat =>
      let r := GetOrCreateCategoryIDs s rest
      (cat.id :: r.1, r.2)
    | none =>
      let s1 : CatStore := ⟨s.cats ++ [⟨s.nextID, name⟩], s.nextID + 1⟩
      let r := GetOrCreateCategoryIDs s1 rest
      (s.nextID :: r.1, r.2)

/-- Embedding of `GetCategories(db)` (`queries.go:627`). -/
def GetCategories (s : CatStore) : List CategoryRow :=
  s.cats

/-- C6 counterexample: with a single category (1, "tech") and the duplicate
input [1, 1], the `IN` clause matches the row once, so "tech" appears once in
the output, not twice as the claim requires. -/
theorem getCategoryNames_duplicates_counterexample :
    GetCategoryNamesByIDs [⟨1, "tech"⟩] [1, 1] = ["tech"] ∧
    ¬ (GetCategoryNamesByIDs [⟨1, "tech"⟩] [1, 1]).count "tech" = 2 := by
  constructor
  · rfl
  · decide

/-- C6 (amended): `GetCategoryNamesByIDs` returns the names of the stored
categories whose id is a member of the input list, sorted lexicographically;
the SQL `IN` clause has set semantics, so duplicate input ids contribute only
one occurrence and the output is invariant under deduplicating the input. -/
theorem getCategoryNames_sorted_set_semantics (cats : List CategoryRow) (ids : List Nat) :
    (GetCategoryNamesByIDs cats ids).Sorted (· ≤ ·) ∧
    (GetCategoryNamesByIDs cats ids).Perm
      ((cats.filter (fun cat => ids.contains cat.id)).map (fun cat => cat.name)) ∧
    GetCategoryNamesByIDs cats ids = GetCategoryNamesByIDs cats ids.dedup := by
  have hmem : ∀ (l : List Nat) (cat : CategoryRow),
      l.contains cat.id = l.dedup.contains cat.id := by
    intro l cat
    by_cases h : cat.id ∈ l
    · have h2 : cat.id ∈ l.dedup := List.mem_dedup.mpr h
      simp [h, h2]
    · have h2 : cat.id ∉ l.dedup := fun hc => h (List.mem_dedup.mp hc)
      simp [h, h2]
  refine ⟨?_, ?_, ?_⟩
  · rw [GetCategoryNamesByIDs]
    split
    · exact List.sorted_nil
    · exact List.sorted_insertionSort _ _
  · rw [GetCategoryNamesByIDs]
    split
    · have : ids = [] := List.length_eq_zero.mp (by assumption)
      subst this
      simp
    · exact List.perm_insertionSort _ _
  · rw [GetCategoryNamesByIDs, GetCategoryNamesByIDs]
    have hlen : (ids.length = 0) ↔ (ids.dedup.length = 0) := by
      rw [List.length_eq_zero, List.length_eq_zero, List.dedup_eq_nil]
    by_cases h : ids.length = 0
    · rw [if_pos h, if_pos (hlen.mp h)]
    · rw [if_neg h, if_neg (fun hc => h (hlen.mpr hc))]
      congr 1
      congr 1
      apply List.filter_congr
      intro cat _
      rw [hmem]
lemma getOrCreate_cats_extension (names : List String) (s : CatStore) :
    ∃ ext, (GetOrCreateCategoryIDs s names).2.cats = s.cats ++ ext := by
  induction names generalizing s with
  | nil => exact ⟨[], by simp [GetOrCreateCategoryIDs]⟩
  | cons n rest ih =>
    cases hf : s.cats.find? (fun cat => cat.name = n) with
    | some cat =>
      obtain ⟨ext, hext⟩ := ih s
      exact ⟨ext, by simp [GetOrCreateCategoryIDs, hf, hext]⟩
    | none =>
      obtain ⟨ext, hext⟩ := ih ⟨s.cats ++ [⟨s.nextID, n⟩], s.nextID + 1⟩
      refine ⟨⟨s.nextID, n⟩ :: ext, ?_⟩
      rw [GetOrCreateCategoryIDs]
      simp only [hf]
      rw [hext]
      simp

/-- C7: `GetOrCreateCategoryIDs` returns one id per input name in input order:
position `i` of the output pairs with input name `i`, and a category with that
name and id exists in the resulting store; a name the SELECT already resolves
keeps its existing id; and every input name appears in the category listing
afterwards. -/
theorem getOrCreate_resolves_in_order (s : CatStore) (names : List String) :
    ((GetOrCreateCategoryIDs s names).1.length = names.length) ∧
    (∀ i, i < names.length →
      ∃ cat ∈ (GetOrCreateCategoryIDs s names).2.cats,
        (GetOrCreateCategoryIDs s names).1[i]? = some cat.id ∧
        names[i]? = some cat.name) ∧
    (∀ (i : Nat) name0 cat, names[i]? = some name0 →
      s.cats.find? (fun c' => c'.name = name0) = some cat →
      (GetOrCreateCategoryIDs s names).1[i]? = some cat.id) ∧
    (∀ n ∈ names, ∃ cat ∈ GetCategories (GetOrCreateCategoryIDs s names).2, cat.name = n) := by
  induction names generalizing s with
  | nil =>
    refine ⟨rfl, ?_, ?_, ?_⟩
    · intro i hi; exact absurd hi (by simp)
    · intro i name0 cat h1 _; simp at h1
    · intro n hn; simp at hn
  | cons nm rest ih =>
    cases hf : s.cats.find? (fun cat => cat.name = nm) with
    | some cat0 =>
      obtain ⟨ihlen, ihpos, ihold, ihmem⟩ := ih s
      have hrun : GetOrCreateCategoryIDs s (nm :: rest) =
          (cat0.id :: (GetOrCreateCategoryIDs s rest).1, (GetOrCreateCategoryIDs s rest).2) := by
        rw [GetOrCreateCategoryIDs]
        simp only [hf]
      rw [hrun]
      have hc0name : cat0.name = nm := by
        have := List.find?_some hf
        simpa using this
      have hc0mem : cat0 ∈ s.cats := List.mem_of_find?_eq_some hf
      obtain ⟨ext, hext⟩ := getOrCreate_cats_extension rest s
      refine ⟨by simpa using ihlen, ?_, ?_, ?_⟩
      · intro i hi
        cases i with
        | zero =>
          refine ⟨cat0, ?_, by simp, by simp [hc0name]⟩
          simp only [hext]
          exact List.mem_append_left _ hc0mem
        | succ j =>
          obtain ⟨cat, hmem, hid, hname⟩ := ihpos j (by simpa using hi)
          exact ⟨cat, hmem, by simpa using hid, by simpa using hname⟩
      · intro i name0 cat h1 h2
        cases i with
        | zero =>
          simp only [List.getElem?_cons_zero, Option.some.injEq] at h1
          subst h1
          rw [hf] at h2
          injection h2 with h2
          subst h2
          simp
        | succ j =>
          simp only [List.getElem?_cons_succ] at h1 ⊢
          exact ihold j name0 cat h1 h2
      · intro n hn
        rcases List.mem_cons.mp hn with rfl | hn'
        · refine ⟨cat0, ?_, hc0name⟩
          show cat0 ∈ (GetOrCreateCategoryIDs s rest).2.cats
          rw [hext]
          exact List.mem_append_left _ hc0mem
        · exact ihmem n hn'
    | none =>
      have hrun : GetOrCreateCategoryIDs s (nm :: rest) =
          (s.nextID :: (GetOrCreateCategoryIDs ⟨s.cats ++ [⟨s.nextID, nm⟩], s.nextID + 1⟩ rest).1,
           (GetOrCreateCategoryIDs ⟨s.cats ++ [⟨s.nextID, nm⟩], s.nextID + 1⟩ rest).2) := by
        rw [GetOrCreateCategoryIDs]
        simp only [hf]
      obtain ⟨ihlen, ihpos, ihold, ihmem⟩ := ih ⟨s.cats ++ [⟨s.nextID, nm⟩], s.nextID + 1⟩
      obtain ⟨ext, hext⟩ :=
        getOrCreate_cats_extension rest ⟨s.cats ++ [⟨s.nextID, nm⟩], s.nextID + 1⟩
      have hnewmem : (⟨s.nextID, nm⟩ : CategoryRow) ∈
          (GetOrCreateCategoryIDs ⟨s.cats ++ [⟨s.nextID, nm⟩], s.nextID + 1⟩ rest).2.cats := by
        rw [hext]
        exact List.mem_append_left _ (List.mem_append_right _ (List.mem_singleton_self _))
      rw [hrun]
      refine ⟨by simpa using ihlen, ?_, ?_, ?_⟩
      · intro i hi
        cases i with
        | zero => exact ⟨⟨s.nextID, nm⟩, hnewmem, by simp, by simp⟩
        | succ j =>
          obtain ⟨cat, hmem, hid, hname⟩ := ihpos j (by simpa using hi)
          exact ⟨cat, hmem, by simpa using hid, by simpa using hname⟩
      · intro i name0 cat h1 h2
        cases i with
        | zero =>
          simp only [List.getElem?_cons_zero, Option.some.injEq] at h1
          subst h1
          rw [hf] at h2
          exact absurd h2 (by simp)
        | succ j =>
          simp only [List.getElem?_cons_succ] at h1 ⊢
          apply ihold j name0 cat h1
          rw [List.find?_append, h2]
          rfl
      · intro n hn
        rcases List.mem_cons.mp hn with rfl | hn'
        · exact ⟨⟨s.nextID, n⟩, hnewmem, rfl⟩
        · exact ihmem n hn'

/-! ## Comments and replies (`comments`, `replycomments` tables) -/

/-- A row of the `comments` table (columns read by `GetPostComments`). -/
structure CommentRow where
  id : Nat
  userID : String
  postID : Nat
  content : String
  createdAt : Nat
deriving DecidableEq, Repr

/-- A row of the `replycomments` table. -/
structure ReplyRow where
  id : Nat
  userID : String
  parentCommentID : Nat
  content : String
  createdAt : Nat
deriving DecidableEq, Repr

/-- A scanned reply (`models.ReplyComment`): the row plus the joined author
columns `username` and `avatar_url`. -/
structure ReplyOut where
  reply : ReplyRow
  userName : String
  profileAvatar : String
deriving DecidableEq, Repr

/-- A scanned comment (`models.Comment`): the row, the joined author columns,
and the `Replies` slice the Go code fills in step 2. -/
structure CommentOut where
  comment : CommentRow
  userName : String
  profileAvatar : String
  replies : List ReplyOut
deriving DecidableEq, Repr

/-- The tables `GetPostComments` touches. -/
structure CommentsDB where
  users : List UserRow
  comments : List CommentRow
  replycomments : List ReplyRow
deriving DecidableEq, Repr

/-- An SQL inner `JOIN users u ON u.id = key(row)`: every row paired with
every user whose id equals its key column. -/
def joinUsers {α : Type} (rows : List α) (users : List UserRow) (key : α → String) :
    List (α × UserRow) :=
  rows.flatMap (fun r => (users.filter (fun u => u.id = key r)).map (fun u => (r, u)))

/-- `ORDER BY c.created_at ASC` on joined comment rows. -/
def byCreatedAtC (a b : CommentRow × UserRow) : Prop :=
  a.1.createdAt ≤ b.1.createdAt

instance : DecidableRel byCreatedAtC := fun _a _b => Nat.decLe _ _

instance : IsTotal (CommentRow × UserRow) byCreatedAtC :=
  ⟨fun a b => Nat.le_total a.1.createdAt b.1.createdAt⟩

instance : IsTrans (CommentRow × UserRow) byCreatedAtC :=
  ⟨fun _ _ _ => Nat.le_trans⟩

/-- `ORDER BY r.created_at ASC` on joined reply rows. -/
def byCreatedAtR (a b : ReplyRow × UserRow) : Prop :=
  a.1.createdAt ≤ b.1.createdAt

instance : DecidableRel byCreatedAtR := fun _a _b => Nat.decLe _ _

instance : IsTotal (ReplyRow × UserRow) byCreatedAtR :=
  ⟨fun a b => Nat.le_total a.1.createdAt b.1.createdAt⟩

instance : IsTrans (ReplyRow × UserRow) byCreatedAtR :=
  ⟨fun _ _ _ => Nat.le_trans⟩

def lastIdxAux (pid : Nat) : List CommentOut → Nat → Option Nat → Option Nat
  | [], _, acc => acc
  | c :: rest, i, acc =>
    lastIdxAux pid rest (i + 1) (if c.comment.id = pid then some i else acc)

/-- Go's `commentsMap` lookup: comment id ↦ index in the scanned slice, later
scans overwriting earlier ones (`commentsMap[c.ID] = len(comments) - 1`). -/
def lastIdxOf (l : List CommentOut) (pid : Nat) : Option Nat :=
  lastIdxAux pid l 0 none

/-- One iteration of `GetPostComments`' reply loop: look the parent up in
`commentsMap` and append the reply to that comment's `Replies`, or drop the
reply when the parent is not among the scanned comments. -/
def attachReply (l : List CommentOut) (r : ReplyOut) : List CommentOut :=
  match lastIdxOf l r.reply.parentCommentID with
  | none => l
  | some i => List.modify (fun c => {c with replies := c.replies ++ [r]}) i l

/-- Embedding of `GetPostComments(db, postID)` (`queries.go:538`).
Step 1: top-level comments of the post joined with their authors, ordered by
`created_at` ascending, scanned with empty `Replies`.
Step 2: the replies whose `parent_comment_id` is `IN (SELECT id FROM comments
WHERE post_id = ?)`, joined with their authors, ordered by `created_at`
ascending, each appended to its parent's `Replies` via `commentsMap`. -/
def GetPostComments (db : CommentsDB) (postID : Nat) : List CommentOut :=
  let top := List.insertionSort byCreatedAtC
    (joinUsers (db.comments.filter (fun comment => comment.postID = postID)) db.users
      (fun comment => comment.userID))
  let base := top.map (fun cu => (⟨cu.1, cu.2.username, cu.2.avatarURL, []⟩ : CommentOut))
  let reps := (List.insertionSort byCreatedAtR
    (joinUsers (db.replycomments.filter (fun reply =>
        (db.comments.filter (fun comment => comment.postID = postID)).any
          (fun comment => comment.id = reply.parentCommentID))) db.users
      (fun reply => reply.userID))).map
    (fun ru => (⟨ru.1, ru.2.username, ru.2.avatarURL⟩ : ReplyOut))
  reps.foldl attachReply base

lemma filter_by_id_singleton (users : List UserRow) (uid : String) (u : UserRow)
    (huid : (users.map (fun v => v.id)).Nodup) (hu : u ∈ users) (hid : u.id = uid) :
    users.filter (fun v => v.id = uid) = [u] := by
  induction users with
  | nil => cases hu
  | cons v rest ih =>
    simp only [List.map_cons, List.nodup_cons, List.mem_map] at huid
    obtain ⟨hvnotin, hrest⟩ := huid
    rcases List.mem_cons.mp hu with rfl | hu'
    · rw [List.filter_cons_of_pos (by simp [hid])]
      have hnil : rest.filter (fun w => w.id = uid) = [] := by
        apply List.filter_eq_nil_iff.mpr
        intro w hw
        simp only [decide_eq_true_eq]
        intro hweq
        exact hvnotin ⟨w, hw, hweq.trans hid.symm⟩
      rw [hnil]
    · have hvne : ¬ v.id = uid := by
        intro h
        exact hvnotin ⟨u, hu', hid.trans h.symm⟩
      rw [List.filter_cons_of_neg (by simp [hvne])]
      exact ih hrest hu'

lemma joinUsers_map_fst {α : Type} (rows : List α) (users : List UserRow) (key : α → String)
    (huid : (users.map (fun v => v.id)).Nodup)
    (hfk : ∀ r ∈ rows, ∃ u ∈ users, u.id = key r) :
    (joinUsers rows users key).map Prod.fst = rows := by
  induction rows with
  | nil => rfl
  | cons r rest ih =>
    obtain ⟨u, hu, hid⟩ := hfk r (List.mem_cons_self r rest)
    rw [joinUsers, List.flatMap_cons, List.map_append]
    rw [filter_by_id_singleton users (key r) u huid hu hid]
    have ihr := ih (fun r' hr' => hfk r' (List.mem_cons_of_mem r hr'))
    rw [joinUsers] at ihr
    simp [ihr]

lemma lastIdxAux_not_found (pid : Nat) (l : List CommentOut) (i : Nat) (acc : Option Nat)
    (h : ∀ cmt ∈ l, ¬ cmt.comment.id = pid) :
    lastIdxAux pid l i acc = acc := by
  induction l generalizing i acc with
  | nil => rfl
  | cons cmt rest ih =>
    rw [lastIdxAux, if_neg (h cmt (List.mem_cons_self cmt rest))]
    exact ih (i + 1) acc (fun x hx => h x (List.mem_cons_of_mem cmt hx))

lemma lastIdxAux_found_unique (pid : Nat) (l : List CommentOut) (i : Nat) (acc : Option Nat)
    (k : Nat) (hk : k < l.length) (hck : l[k].comment.id = pid)
    (huniq : ∀ j (hj : j < l.length), l[j].comment.id = pid → j = k) :
    lastIdxAux pid l i acc = some (i + k) := by
  induction l generalizing i acc k with
  | nil => exact absurd hk (by simp)
  | cons cmt rest ih =>
    cases k with
    | zero =>
      have hck0 : cmt.comment.id = pid := by simpa using hck
      rw [lastIdxAux, if_pos hck0]
      have hrest : ∀ x ∈ rest, ¬ x.comment.id = pid := by
        intro x hx hxid
        obtain ⟨j, hj, hget⟩ := List.getElem_of_mem hx
        have hjlt : j + 1 < (cmt :: rest).length := by simpa using Nat.succ_lt_succ hj
        have hj1 : (cmt :: rest)[j + 1].comment.id = pid := by
          simpa [hget] using hxid
        have := huniq (j + 1) hjlt hj1
        exact absurd this (by simp)
      rw [lastIdxAux_not_found pid rest (i + 1) (some i) hrest]
      simp
    | succ j =>
      have hcne : ¬ cmt.comment.id = pid := by
        intro hceq
        have := huniq 0 (by simp) (by simpa using hceq)
        exact absurd this.symm (by simp)
      rw [lastIdxAux, if_neg hcne]
      have hjk : j < rest.length := by simpa using hk
      have hckr : rest[j].comment.id = pid := by simpa using hck
      have huniqr : ∀ q (hq : q < rest.length), rest[q].comment.id = pid → q = j := by
        intro q hq hid0
        have hqlt : q + 1 < (cmt :: rest).length := by simpa using Nat.succ_lt_succ hq
        have h1 : (cmt :: rest)[q + 1].comment.id = pid := by simpa using hid0
        have := huniq (q + 1) hqlt h1
        omega
      rw [ih (i + 1) acc j hjk hckr huniqr]
      congr 1
      omega

lemma attachReply_eq_map (acc : List CommentOut) (r : ReplyOut)
    (hnd : (acc.map (fun cmt => cmt.comment.id)).Nodup) :
    attachReply acc r = acc.map (fun cmt =>
      {cmt with replies := cmt.replies ++
        (if cmt.comment.id = r.reply.parentCommentID then [r] else [])}) := by
  by_cases hex : ∃ k, ∃ hk : k < acc.length, acc[k].comment.id = r.reply.parentCommentID
  · obtain ⟨k, hk, hck⟩ := hex
    have huniq : ∀ j (hj : j < acc.length),
        acc[j].comment.id = r.reply.parentCommentID → j = k := by
      intro j hj hjid
      have hinj := List.nodup_iff_injective_get.mp hnd
      have h1 : (acc.map (fun cmt => cmt.comment.id)).get ⟨j, by simpa using hj⟩ =
          (acc.map (fun cmt => cmt.comment.id)).get ⟨k, by simpa using hk⟩ := by
        simp only [List.get_eq_getElem, List.getElem_map]
        rw [hjid, hck]
      have h2 := hinj h1
      simpa using congrArg Fin.val h2
    rw [attachReply, lastIdxOf,
      lastIdxAux_found_unique r.reply.parentCommentID acc 0 none k hk hck huniq]
    simp only [Nat.zero_add]
    apply List.ext_getElem?
    intro n
    rw [List.getElem?_modify, List.getElem?_map]
    cases hn : acc[n]? with
    | none => rfl
    | some cmt =>
      obtain ⟨hnlt, hneq⟩ := List.getElem?_eq_some.mp hn
      by_cases hkn : k = n
      · subst hkn
        have hcmt : cmt.comment.id = r.reply.parentCommentID := by
          rw [← hneq]
          exact hck
        simp [hcmt]
      · have hcmt : ¬ cmt.comment.id = r.reply.parentCommentID := by
          intro hceq
          exact hkn ((huniq n hnlt (by rw [hneq]; exact hceq)).symm)
        simp [hkn, hcmt]
  · have hnone : ∀ cmt ∈ acc, ¬ cmt.comment.id = r.reply.parentCommentID := by
      intro cmt hc hid0
      obtain ⟨j, hj, hget⟩ := List.getElem_of_mem hc
      exact hex ⟨j, hj, by rw [hget]; exact hid0⟩
    rw [attachReply, lastIdxOf, lastIdxAux_not_found _ _ _ _ hnone]
    have hcongr : ∀ cmt ∈ acc, (fun cmt : CommentOut =>
        {cmt with replies := cmt.replies ++
          (if cmt.comment.id = r.reply.parentCommentID then [r] else [])}) cmt = id cmt := by
      intro cmt hc
      simp [hnone cmt hc]
    rw [List.map_congr_left hcongr, List.map_id]

lemma foldl_attachReply_eq (reps : List ReplyOut) (acc : List CommentOut)
    (hnd : (acc.map (fun cmt => cmt.comment.id)).Nodup) :
    reps.foldl attachReply acc = acc.map (fun cmt =>
      {cmt with replies := cmt.replies ++
        reps.filter (fun ro => ro.reply.parentCommentID = cmt.comment.id)}) := by
  induction reps generalizing acc with
  | nil =>
    simp only [List.foldl_nil, List.filter_nil, List.append_nil]
    exact (List.map_id acc).symm
  | cons r rest ih =>
    rw [List.foldl_cons, attachReply_eq_map acc r hnd]
    have hnd2 : (((acc.map (fun cmt =>
        {cmt with replies := cmt.replies ++
          (if cmt.comment.id = r.reply.parentCommentID then [r] else [])})).map
        (fun cmt => cmt.comment.id))).Nodup := by
      rw [List.map_map]
      exact hnd
    rw [ih _ hnd2, List.map_map]
    apply List.map_congr_left
    intro cmt _
    simp only [Function.comp_apply]
    congr 1
    rw [List.filter_cons]
    by_cases hc : cmt.comment.id = r.reply.parentCommentID
    · rw [if_pos hc, if_pos (by simp [hc])]
      simp
    · have hc2 : ¬ r.reply.parentCommentID = cmt.comment.id := fun h => hc h.symm
      rw [if_neg hc, if_neg (by simp [hc2])]
      simp
lemma mem_joinUsers_fst {α : Type} {rows : List α} {users : List UserRow} {key : α → String}
    {x : α × UserRow} (hx : x ∈ joinUsers rows users key) : x.1 ∈ rows := by
  obtain ⟨r, hr, hx2⟩ := List.mem_flatMap.mp hx
  obtain ⟨u, hu, rfl⟩ := List.mem_map.mp hx2
  exact hr

/-- C8: under the schema invariants (unique comment ids, unique user ids,
author foreign keys), `GetPostComments` returns exactly the post's top-level
comments in oldest-first `created_at` order, and each returned comment carries
exactly the replies whose `parent_comment_id` equals its id, in oldest-first
order (a comment with no matching reply rows carries the empty list, a special
case of the reply-multiset equality). -/
theorem getPostComments_shape (db : CommentsDB) (postID : Nat)
    (hcid : (db.comments.map (fun cmt => cmt.id)).Nodup)
    (huid : (db.users.map (fun u => u.id)).Nodup)
    (hcfk : ∀ cmt ∈ db.comments, ∃ u ∈ db.users, u.id = cmt.userID)
    (hrfk : ∀ reply ∈ db.replycomments, ∃ u ∈ db.users, u.id = reply.userID) :
    ((GetPostComments db postID).map (fun co => co.comment)).Perm
      (db.comments.filter (fun cmt => cmt.postID = postID)) ∧
    ((GetPostComments db postID).map (fun co => co.comment)).Pairwise
      (fun a b => a.createdAt ≤ b.createdAt) ∧
    (∀ co ∈ GetPostComments db postID,
      (co.replies.map (fun ro => ro.reply)).Perm
        (db.replycomments.filter (fun reply => reply.parentCommentID = co.comment.id)) ∧
      (co.replies.map (fun ro => ro.reply)).Pairwise
        (fun a b => a.createdAt ≤ b.createdAt)) := by
  have hunfold : GetPostComments db postID =
      ((List.insertionSort byCreatedAtR (joinUsers (db.replycomments.filter (fun reply =>
          (db.comments.filter (fun cmt => cmt.postID = postID)).any
            (fun cmt => cmt.id = reply.parentCommentID))) db.users
          (fun reply => reply.userID))).map
        (fun ru => (⟨ru.1, ru.2.username, ru.2.avatarURL⟩ : ReplyOut))).foldl attachReply
        ((List.insertionSort byCreatedAtC (joinUsers (db.comments.filter
            (fun cmt => cmt.postID = postID)) db.users (fun cmt => cmt.userID))).map
          (fun cu => (⟨cu.1, cu.2.username, cu.2.avatarURL, []⟩ : CommentOut))) := rfl
  rw [hunfold]
  set rows := db.comments.filter (fun cmt => cmt.postID = postID) with hrowsdef
  set repsRows := db.replycomments.filter (fun reply =>
      rows.any (fun cmt => cmt.id = reply.parentCommentID)) with hrepsdef
  set J := joinUsers rows db.users (fun cmt => cmt.userID) with hJdef
  set JR := joinUsers repsRows db.users (fun reply => reply.userID) with hJRdef
  set top := List.insertionSort byCreatedAtC J with htopdef
  set sortedJR := List.insertionSort byCreatedAtR JR with hsortdef
  set base := top.map (fun cu => (⟨cu.1, cu.2.username, cu.2.avatarURL, []⟩ : CommentOut))
    with hbasedef
  set reps := sortedJR.map (fun ru => (⟨ru.1, ru.2.username, ru.2.avatarURL⟩ : ReplyOut))
    with hrepsOdef
  have hJfst : J.map Prod.fst = rows :=
    joinUsers_map_fst _ _ _ huid (fun cmt hc => hcfk cmt (List.mem_of_mem_filter hc))
  have hJRfst : JR.map Prod.fst = repsRows :=
    joinUsers_map_fst _ _ _ huid (fun reply hr => hrfk reply (List.mem_of_mem_filter hr))
  have htopPerm : top.Perm J := List.perm_insertionSort byCreatedAtC J
  have hsortedPerm : sortedJR.Perm JR := List.perm_insertionSort byCreatedAtR JR
  have htopSorted : List.Pairwise byCreatedAtC top := List.sorted_insertionSort byCreatedAtC J
  have hJRsorted : List.Pairwise byCreatedAtR sortedJR :=
    List.sorted_insertionSort byCreatedAtR JR
  have hrowsNodup : (rows.map (fun cmt => cmt.id)).Nodup :=
    List.Nodup.sublist ((List.filter_sublist db.comments).map (fun cmt => cmt.id)) hcid
  have htopIdsPerm : (top.map (fun cu => cu.1.id)).Perm (rows.map (fun cmt => cmt.id)) := by
    have h1 := htopPerm.map (fun cu : CommentRow × UserRow => cu.1.id)
    have h2 : J.map (fun cu : CommentRow × UserRow => cu.1.id) =
        (J.map Prod.fst).map (fun cmt => cmt.id) := by
      rw [List.map_map]
      rfl
    rw [h2, hJfst] at h1
    exact h1
  have hbaseNodup : (base.map (fun co => co.comment.id)).Nodup := by
    have hbi : base.map (fun co => co.comment.id) = top.map (fun cu => cu.1.id) := by
      rw [hbasedef, List.map_map]
      rfl
    rw [hbi]
    exact htopIdsPerm.symm.nodup hrowsNodup
  rw [foldl_attachReply_eq reps base hbaseNodup]
  have hcomments_eq :
      ((base.map (fun cmt =>
          {cmt with replies := cmt.replies ++
            reps.filter (fun ro : ReplyOut => ro.reply.parentCommentID = cmt.comment.id)})).map
        (fun co => co.comment)) = top.map Prod.fst := by
    rw [List.map_map, hbasedef, List.map_map]
    rfl
  refine ⟨?_, ?_, ?_⟩
  · rw [hcomments_eq]
    have h1 := htopPerm.map Prod.fst
    rw [hJfst] at h1
    exact h1
  · rw [hcomments_eq, List.pairwise_map]
    exact htopSorted
  · intro co hco
    obtain ⟨b0, hb0, hco2⟩ := List.mem_map.mp hco
    rw [hbasedef] at hb0
    obtain ⟨cu, hcu, hb2⟩ := List.mem_map.mp hb0
    have hcurow : cu.1 ∈ rows := by
      have hcuJ : cu ∈ J := (List.mem_insertionSort byCreatedAtC).mp (htopdef ▸ hcu)
      exact mem_joinUsers_fst hcuJ
    have hcommenteq : co.comment = cu.1 := by
      rw [← hco2, ← hb2]
    have hreplies : co.replies =
        reps.filter (fun ro => ro.reply.parentCommentID = cu.1.id) := by
      rw [← hco2, ← hb2]
      rfl
    have hrepsReply : reps.map (fun ro => ro.reply) = sortedJR.map Prod.fst := by
      rw [hrepsOdef, List.map_map]
      rfl
    have hrepsPerm : (reps.map (fun ro => ro.reply)).Perm repsRows := by
      rw [hrepsReply]
      have h1 := hsortedPerm.map Prod.fst
      rw [hJRfst] at h1
      exact h1
    have hfcongr : repsRows.filter (fun rr => rr.parentCommentID = cu.1.id) =
        db.replycomments.filter (fun rr => rr.parentCommentID = cu.1.id) := by
      rw [hrepsdef, List.filter_filter]
      apply List.filter_congr
      intro rr _
      by_cases hq : rr.parentCommentID = cu.1.id
      · have hany : rows.any (fun cmt => cmt.id = cu.1.id) = true :=
          List.any_eq_true.mpr ⟨cu.1, hcurow, by simp⟩
        simp [hq, hany]
      · simp [hq]
    constructor
    · rw [hreplies, hcommenteq]
      have e1 : (reps.filter (fun ro : ReplyOut => ro.reply.parentCommentID = cu.1.id)).map
          (fun ro => ro.reply) =
          (reps.map (fun ro => ro.reply)).filter (fun rr => rr.parentCommentID = cu.1.id) :=
        (@List.filter_map ReplyOut ReplyRow (fun rr => decide (rr.parentCommentID = cu.1.id))
          (fun ro => ro.reply) reps).symm
      rw [e1, ← hfcongr]
      exact hrepsPerm.filter _
    · rw [hreplies, List.pairwise_map]
      have hsortedReps :
          List.Pairwise (fun a b : ReplyOut => a.reply.createdAt ≤ b.reply.createdAt) reps := by
        rw [hrepsOdef, List.pairwise_map]
        exact hJRsorted
      exact hsortedReps.filter _

/-- Witness for `getOrCreate_resolves_in_order`: the spec's §8 scenario,
"tech" exists with id 1, "news" is new. -/
theorem getOrCreate_resolves_in_order_witness :
    (GetOrCreateCategoryIDs ⟨[⟨1, "tech"⟩], 2⟩ ["tech", "news"]).1[0]? = some 1 ∧
    (GetOrCreateCategoryIDs ⟨[⟨1, "tech"⟩], 2⟩ ["tech", "news"]).1.length = 2 :=
  ⟨(getOrCreate_resolves_in_order ⟨[⟨1, "tech"⟩], 2⟩ ["tech", "news"]).2.2.1 0 "tech"
      ⟨1, "tech"⟩ rfl rfl,
   (getOrCreate_resolves_in_order ⟨[⟨1, "tech"⟩], 2⟩ ["tech", "news"]).1⟩

/-- Witness for `getPostComments_shape`: post 10 with comments C1 (one reply)
and C2 (none). -/
theorem getPostComments_shape_witness :
    ((GetPostComments ⟨[⟨"ua", "alice", "a@x", "h", "av"⟩],
        [⟨1, "ua", 10, "C1", 100⟩, ⟨2, "ua", 10, "C2", 200⟩],
        [⟨7, "ua", 1, "R1", 150⟩]⟩ 10).map (fun co => co.comment)).Perm
      [⟨1, "ua", 10, "C1", 100⟩, ⟨2, "ua", 10, "C2", 200⟩] := by
  have h := getPostComments_shape ⟨[⟨"ua", "alice", "a@x", "h", "av"⟩],
      [⟨1, "ua", 10, "C1", 100⟩, ⟨2, "ua", 10, "C2", 200⟩],
      [⟨7, "ua", 1, "R1", 150⟩]⟩ 10 (by decide) (by decide) (by decide) (by decide)
  exact h.1

/-! ## Posts (`posts`, `post_categories` tables) -/

/-- A row of the `posts` table (the columns `GetPosts` selects). -/
structure PostRow where
  id : Nat
  userID : String
  title : String
  content : String
  imageURL : String
  createdAt : Nat
  updatedAt : Nat
deriving DecidableEq, Repr

/-- A row of the `post_categories` join table. -/
structure PostCategoryRow where
  postID : Nat
  categoryID : Nat
deriving DecidableEq, Repr

/-- The tables the post operations touch, plus the next AUTOINCREMENT post
id. -/
structure PostsDB where
  users : List UserRow
  posts : List PostRow
  postCategories : List PostCategoryRow
  categories : List CategoryRow
  likes : List ReactionRow
  nextPostID : Nat
deriving DecidableEq, Repr

/-- The association-insert loop of `CreatePost` (`queries.go:79`–`84`): one
`INSERT INTO post_categories` per category id, in input order.  `failAt`
injects a database failure at the association insert with that index (`none`
means every insert succeeds); the Bool reports success.  On failure the loop
returns immediately — rows already inserted stay. -/
def insertPostCategories (db : PostsDB) (postID : Nat) (categoryIDs : List Nat)
    (failAt : Option Nat) (k : Nat) : PostsDB × Bool :=
  match categoryIDs with
  | [] => (db, true)
  | catID :: rest =>
    if failAt = some k then (db, false)
    else insertPostCategories
      {db with postCategories := db.postCategories ++ [⟨postID, catID⟩]}
      postID rest failAt (k + 1)

/-- Embedding of `CreatePost(db, userID, categoryIDs, title, content,
imageURL)` (`queries.go:57`): insert the post row (RETURNING the fresh id),
then insert the associations one by one — with no transaction around the two
steps, so the post row persists even when an association insert fails. -/
def CreatePost (db : PostsDB) (userID : String) (categoryIDs : List Nat)
    (title content imageURL : String) (now : Nat) (failAt : Option Nat) :
    PostsDB × Except String PostRow :=
  let post : PostRow := ⟨db.nextPostID, userID, title, content, imageURL, now, now⟩
  let db1 := {db with posts := db.posts ++ [post], nextPostID := db.nextPostID + 1}
  match insertPostCategories db1 post.id categoryIDs failAt 0 with
  | (db2, true) => (db2, .ok post)
  | (db2, false) => (db2, .error "failed to insert into post_categories")

lemma insertPostCategories_ok (db : PostsDB) (postID : Nat) (catIDs : List Nat) (k : Nat) :
    insertPostCategories db postID catIDs none k =
      ({db with postCategories :=
          db.postCategories ++ catIDs.map (fun catID => ⟨postID, catID⟩)}, true) := by
  induction catIDs generalizing db k with
  | nil => simp [insertPostCategories]
  | cons catID rest ih =>
    rw [insertPostCategories, if_neg (by simp)]
    rw [ih]
    simp

lemma insertPostCategories_fail (db : PostsDB) (postID : Nat) (catIDs : List Nat)
    (k j : Nat) (hj : j < catIDs.length) :
    insertPostCategories db postID catIDs (some (k + j)) k =
      ({db with postCategories :=
          db.postCategories ++ (catIDs.take j).map (fun catID => ⟨postID, catID⟩)}, false) := by
  induction catIDs generalizing db k j with
  | nil => exact absurd hj (by simp)
  | cons catID rest ih =>
    cases j with
    | zero =>
      rw [insertPostCategories, if_pos (by simp)]
      simp
    | succ j0 =>
      rw [insertPostCategories, if_neg (by simp)]
      have : k + (j0 + 1) = (k + 1) + j0 := by omega
      rw [this, ih _ _ _ (by simpa using hj)]
      simp

/-- C9: `CreatePost` is not atomic.  When every insert succeeds it stores the
post row and one association row per category id in input order; when the
association insert at (0-based) index `j` fails, it returns an error while the
post row and the first `j` association rows remain in the store — nothing is
rolled back. -/
theorem createPost_not_atomic (db : PostsDB) (userID : String) (categoryIDs : List Nat)
    (title content imageURL : String) (now : Nat) :
    (CreatePost db userID categoryIDs title content imageURL now none =
      ({db with
          posts := db.posts ++ [⟨db.nextPostID, userID, title, content, imageURL, now, now⟩],
          postCategories := db.postCategories ++
            categoryIDs.map (fun catID => ⟨db.nextPostID, catID⟩),
          nextPostID := db.nextPostID + 1},
       .ok ⟨db.nextPostID, userID, title, content, imageURL, now, now⟩)) ∧
    (∀ j, j < categoryIDs.length →
      CreatePost db userID categoryIDs title content imageURL now (some j) =
        ({db with
            posts := db.posts ++ [⟨db.nextPostID, userID, title, content, imageURL, now, now⟩],
            postCategories := db.postCategories ++
              (categoryIDs.take j).map (fun catID => ⟨db.nextPostID, catID⟩),
            nextPostID := db.nextPostID + 1},
         .error "failed to insert into post_categories")) := by
  constructor
  · rw [CreatePost]
    rw [insertPostCategories_ok]
  · intro j hj
    rw [CreatePost]
    have h0 : (some j : Option Nat) = some (0 + j) := by simp
    rw [h0, insertPostCategories_fail _ _ _ 0 j hj]

/-- Witness for `createPost_not_atomic`: two categories, failure at the second
association insert; the post row and the first association remain. -/
theorem createPost_not_atomic_witness :
    CreatePost ⟨[], [], [], [], [], 5⟩ "ua" [3, 4] "T" "B" "i.png" 9 (some 1) =
      (⟨[], [⟨5, "ua", "T", "B", "i.png", 9, 9⟩], [⟨5, 3⟩], [], [], 6⟩,
       .error "failed to insert into post_categories") :=
  (createPost_not_atomic ⟨[], [], [], [], [], 5⟩ "ua" [3, 4] "T" "B" "i.png" 9).2
    1 (by decide)
/-- `ORDER BY posts.created_at DESC` on joined post rows. -/
def byCreatedAtPDesc (a b : PostRow × UserRow) : Prop :=
  b.1.createdAt ≤ a.1.createdAt

instance : DecidableRel byCreatedAtPDesc := fun _a _b => Nat.decLe _ _

/-- `ORDER BY likes.created_at DESC` on post-user-like join rows. -/
def byLikeCreatedAtDesc (a b : (PostRow × UserRow) × ReactionRow) : Prop :=
  b.2.createdAt ≤ a.2.createdAt

instance : DecidableRel byLikeCreatedAtDesc := fun _a _b => Nat.decLe _ _

/-- SQLite `LIMIT ? OFFSET ?` semantics: a negative OFFSET is treated as 0, a
negative LIMIT means no limit. -/
def sqlPage {α : Type} (rows : List α) (limit offset : Int) : List α :=
  let dropped := rows.drop offset.toNat
  if limit < 0 then dropped else dropped.take limit.toNat

/-- A scanned post (`models.Post`): the row, the joined author username, and
the category data the listing endpoints attach. -/
structure PostOut where
  post : PostRow
  username : String
  categoryIDs : List Nat
  categoryNames : List String
deriving DecidableEq, Repr

/-- Embedding of `GetPosts(db, page, limit)` (`queries.go:138`): the page of
posts joined with their authors, newest first, `offset = (page-1)*limit`; if
the page is empty, return `[]` immediately — before the `post_categories`
batch query and the per-post `GetCategoryNamesByIDs` calls.  The second
component counts those category queries (0 on the early return, otherwise the
batch query plus one name lookup per post). -/
def GetPosts (db : PostsDB) (page limit : Int) : List PostOut × Nat :=
  let offset := (page - 1) * limit
  let pageRows := sqlPage
    (List.insertionSort byCreatedAtPDesc (joinUsers db.posts db.users (fun post => post.userID)))
    limit offset
  if pageRows.length = 0 then ([], 0)
  else
    (pageRows.map (fun pu =>
      let catIDs := (db.postCategories.filter (fun pc => pc.postID = pu.1.id)).map
        (fun pc => pc.categoryID)
      (⟨pu.1, pu.2.username, catIDs, GetCategoryNamesByIDs db.categories catIDs⟩ : PostOut)),
     1 + pageRows.length)

/-- Embedding of `GetPostsLikedByUser(db, userID, page, limit)`
(`queries.go:353`): posts joined with authors and with the user's "like" rows,
ordered by the like's creation time descending, paginated the same way; the
same early return on an empty page, before any category query.  Per Go, the
name lookup only runs for posts with at least one category id. -/
def GetPostsLikedByUser (db : PostsDB) (userID : String) (page limit : Int) :
    List PostOut × Nat :=
  let offset := (page - 1) * limit
  let joined := (joinUsers db.posts db.users (fun post => post.userID)).flatMap
    (fun pu => (db.likes.filter (fun l =>
        l.postID = some pu.1.id && l.userID = userID && l.type = "like")).map
      (fun l => (pu, l)))
  let pageRows := sqlPage (List.insertionSort byLikeCreatedAtDesc joined) limit offset
  if pageRows.length = 0 then ([], 0)
  else
    let outs := pageRows.map (fun pul =>
      let catIDs := (db.postCategories.filter (fun pc => pc.postID = pul.1.1.id)).map
        (fun pc => pc.categoryID)
      (⟨pul.1.1, pul.1.2.username, catIDs,
        if 0 < catIDs.length then GetCategoryNamesByIDs db.categories catIDs else []⟩ :
        PostOut))
    (outs, 1 + (outs.filter (fun po => 0 < po.categoryIDs.length)).length)

/-- C10: when the requested page is empty (page past the end, or an empty
store), `GetPosts` and `GetPostsLikedByUser` return the empty list with no
error and perform no category queries at all (count 0). -/
theorem getPosts_empty_page (db : PostsDB) (userID : String) (page limit : Int)
    (h1 : sqlPage
      (List.insertionSort byCreatedAtPDesc
        (joinUsers db.posts db.users (fun post => post.userID)))
      limit ((page - 1) * limit) = [])
    (h2 : sqlPage
      (List.insertionSort byLikeCreatedAtDesc
        ((joinUsers db.posts db.users (fun post => post.userID)).flatMap
          (fun pu => (db.likes.filter (fun l =>
              l.postID = some pu.1.id && l.userID = userID && l.type = "like")).map
            (fun l => (pu, l)))))
      limit ((page - 1) * limit) = []) :
    GetPosts db page limit = ([], 0) ∧
    GetPostsLikedByUser db userID page limit = ([], 0) := by
  constructor
  · rw [GetPosts]
    simp only [h1]
    rfl
  · rw [GetPostsLikedByUser]
    simp only [h2]
    rfl

/-- Witness for `getPosts_empty_page`: the empty store, page 1, page size
10. -/
theorem getPosts_empty_page_witness :
    GetPosts ⟨[], [], [], [], [], 1⟩ 1 10 = ([], 0) ∧
    GetPostsLikedByUser ⟨[], [], [], [], [], 1⟩ "ua" 1 10 = ([], 0) :=
  getPosts_empty_page ⟨[], [], [], [], [], 1⟩ "ua" 1 10 rfl rfl
end Forum
